import Mathlib

/-!
Shallow embedding of `src/comparacion_stock.py`, the stock-comparison script.

The script loads two CSVs into pandas DataFrames, validates that all
requested key columns exist in both frames and that the two frames have the
same column set, then partitions the rows into four result frames:

* `identicas`  — aligned pairs whose comparable columns all agree,
* `diferentes` — aligned pairs with at least one disagreeing comparable
  column, carrying a synthetic `diff_cols` column,
* `solo_v2`    — rows of the new frame whose key tuple is absent from v1,
* `solo_v1`    — rows of the old frame whose key tuple is absent from v2.

A DataFrame is modelled as an ordered column-name list plus an ordered list
of rows; each cell is a string (the design treats all values as opaque text
scalars and the script coerces key columns with `astype(str)` before
joining).  The call `df_v1.merge(df_v2, on=keys, how="inner")` preserves the
order of the left (v1) keys and produces the cross product on duplicate key
tuples, which is exactly the `flatMap`/`filter`/`map` join below; the two
`how="left"` merges with `indicator=True` filtered to `left_only` keep each
left row exactly once, in left order, which is `filter` below.
-/

namespace ComparacionStock

/-- A row of a DataFrame: the cell values in column order. -/
abbrev Row := List String

/-- A pandas DataFrame: ordered column names plus ordered rows. -/
structure DataFrame where
  columns : List String
  rows : List Row
deriving DecidableEq

/-- Value of `row` at column `c`, resolving `c` against `cols` the way
pandas label-based indexing does (first occurrence wins).  Missing columns
give `""`; after validation every lookup is of a present column. -/
def cellAt (cols : List String) (row : Row) (c : String) : String :=
  ((cols.zip row).lookup c).getD ""

/-- String-normalized key tuple of a record: `df[k].astype(str)` on every
key column, in key order (lines 68-70 make the key cells strings; here all
cells are strings already). -/
def keyTuple (cols : List String) (keys : List String) (row : Row) : List String :=
  keys.map (cellAt cols row)

/-- Generic shape of a pandas equi-join producing row pairs: for each left
row, in left order, pair it with every matching right row, in right order. -/
def pairJoin (l1 : List α) (l2 : List β) (p : α → β → Bool) : List (α × β) :=
  l1.flatMap (fun a => (l2.filter (p a)).map (fun b => (a, b)))

/-- Embedding of `merged = df_v1.merge(df_v2, on=keys, how="inner", ...)`
(line 73): every (v1 row, v2 row) pair sharing a key tuple, ordered by the
left (v1) frame's row order with matching right rows in v2 order — cross
product on duplicate keys, no deduplication. -/
def alignedPairs (v1 v2 : DataFrame) (keys : List String) : List (Row × Row) :=
  pairJoin v1.rows v2.rows (fun r1 r2 =>
    keyTuple v1.columns keys r1 == keyTuple v2.columns keys r2)

/-- Embedding of `cols_to_compare = [c for c in df_v1.columns if c not in
keys]` (line 74). -/
def colsToCompare (v1 : DataFrame) (keys : List String) : List String :=
  v1.columns.filter (fun c => !(keys.contains c))

/-- One row of `eq_matrix ... .all(axis=1)` (lines 77-78): the pair agrees
on every comparable column, by exact equality of the stored values. -/
def rowIdentical (v1cols v2cols : List String) (ctc : List String) (r1 r2 : Row) : Bool :=
  ctc.all (fun c => cellAt v1cols r1 c == cellAt v2cols r2 c)

/-- Aligned pairs selected by `identicas_mask`. -/
def identPairs (v1 v2 : DataFrame) (keys : List String) : List (Row × Row) :=
  (alignedPairs v1 v2 keys).filter (fun p =>
    rowIdentical v1.columns v2.columns (colsToCompare v1 keys) p.1 p.2)

/-- Aligned pairs selected by `~identicas_mask`. -/
def diffPairs (v1 v2 : DataFrame) (keys : List String) : List (Row × Row) :=
  (alignedPairs v1 v2 keys).filter (fun p =>
    !(rowIdentical v1.columns v2.columns (colsToCompare v1 keys) p.1 p.2))

/-- Row selected by `merged.loc[mask, keys + [c + "_v1" for c in
cols_to_compare]]` (line 81): the key values, then the v1-side comparable
values, all drawn from the v1-side record. -/
def identRow (v1 : DataFrame) (keys : List String) (r1 : Row) : Row :=
  keys.map (cellAt v1.columns r1) ++ (colsToCompare v1 keys).map (cellAt v1.columns r1)

/-- Embedding of lines 81-82: the identical selection followed by the
positional relabelling `identicas.columns = df_v1.columns`, which overwrites
the header position-by-position with v1's column list. -/
def identicasDF (v1 v2 : DataFrame) (keys : List String) : DataFrame :=
  { columns := v1.columns
    rows := (identPairs v1 v2 keys).map (fun p => identRow v1 keys p.1) }

/-- Per-pair list of comparable columns whose values disagree (one row of
`diffs`, lines 91-93), in `cols_to_compare` definition order. -/
def diffColNames (v1cols v2cols : List String) (ctc : List String) (r1 r2 : Row) : List String :=
  ctc.filter (fun c => cellAt v1cols r1 c != cellAt v2cols r2 c)

/-- Embedding of `",".join(...)` over the differing column names (line 93):
plain comma join, no escaping. -/
def diffColsText (v1cols v2cols : List String) (ctc : List String) (r1 r2 : Row) : String :=
  String.intercalate "," (diffColNames v1cols v2cols ctc r1 r2)

/-- Columns of the selection `keys + [c+"_v1" ...] + [c+"_v2" ...]`
(line 85). -/
def diferentesSelCols (v1 : DataFrame) (keys : List String) : List String :=
  keys ++ (colsToCompare v1 keys).map (fun c => c ++ "_v1")
    ++ (colsToCompare v1 keys).map (fun c => c ++ "_v2")

/-- Values of one selected differing row (line 85): key values, then the
v1-side comparable values, then the v2-side comparable values. -/
def diferentesSelRow (v1 v2 : DataFrame) (keys : List String) (p : Row × Row) : Row :=
  keys.map (cellAt v1.columns p.1)
    ++ (colsToCompare v1 keys).map (cellAt v1.columns p.1)
    ++ (colsToCompare v1 keys).map (cellAt v2.columns p.2)

/-- Embedding of lines 85-94: `diferentes` is the selection `keys + v1
comparables + v2 comparables`; when it is non-empty the `diff_cols` column
is inserted at position `len(keys)` (`diferentes.insert(len(keys), ...)`),
and the guard `if not diferentes.empty` skips the insertion otherwise. -/
def diferentesDF (v1 v2 : DataFrame) (keys : List String) : DataFrame :=
  if (diffPairs v1 v2 keys).isEmpty then
    { columns := diferentesSelCols v1 keys, rows := [] }
  else
    { columns := (diferentesSelCols v1 keys).insertIdx keys.length "diff_cols"
      rows := (diffPairs v1 v2 keys).map (fun p =>
        (diferentesSelRow v1 v2 keys p).insertIdx keys.length
          (diffColsText v1.columns v2.columns (colsToCompare v1 keys) p.1 p.2)) }

/-- Embedding of `a.merge(b[keys], on=keys, how="left", indicator=True)`
filtered to `left_only` (lines 97-98 and 101-102): the rows of `a` whose key
tuple has no match in `b`, once each, in `a`'s row order, with `a`'s
columns. -/
def soloDF (a b : DataFrame) (keys : List String) : DataFrame :=
  { columns := a.columns
    rows := a.rows.filter (fun r =>
      !(b.rows.any (fun s => keyTuple a.columns keys r == keyTuple b.columns keys s))) }

/-- The four result frames produced by a successful run. -/
structure CompareResult where
  identicas : DataFrame
  diferentes : DataFrame
  solo_v2 : DataFrame
  solo_v1 : DataFrame
deriving DecidableEq

/-- The two fatal validation failures of the script.  `missingKey` is the
`[ERROR] La clave '<k>' no existe en ambos CSVs.` exit (lines 60-63); it
carries only the key name, exactly the information the message contains.
`columnMismatch` is the `ValueError` raised by `validate_columns` (lines
35-43), carrying the columns of v1 absent from v2 and the columns of v2
absent from v1, in that order. -/
inductive SchemaError where
  | missingKey (k : String)
  | columnMismatch (missingInV2 missingInV1 : List String)
deriving DecidableEq

/-- User-visible message of each failure, as printed / raised by the
script. -/
def errorMessage : SchemaError → String
  | .missingKey k =>
      "[ERROR] La clave \x27" ++ k ++ "\x27 no existe en ambos CSVs."
  | .columnMismatch m2 m1 =>
      "Las columnas de ambos archivos no coinciden.\n" ++
        "Faltan en V2: " ++ toString m2 ++ "\n" ++
        "Faltan en V1: " ++ toString m1

/-- First requested key column missing from either frame, if any — the
`for k in keys` loop of lines 60-63 exits at the first failure. -/
def findMissingKey (v1 v2 : DataFrame) (keys : List String) : Option String :=
  keys.find? (fun k => !(v1.columns.contains k) || !(v2.columns.contains k))

/-- Embedding of `set(df1.columns) == set(df2.columns)` (line 36). -/
def columnsSetEqual (v1 v2 : DataFrame) : Bool :=
  v1.columns.all (fun c => v2.columns.contains c) &&
    v2.columns.all (fun c => v1.columns.contains c)

/-- Embedding of `missing_in_v2 = [c for c in df1.columns if c not in
df2.columns]` (line 37). -/
def missingInV2 (v1 v2 : DataFrame) : List String :=
  v1.columns.filter (fun c => !(v2.columns.contains c))

/-- Embedding of `missing_in_v1 = [c for c in df2.columns if c not in
df1.columns]` (line 38). -/
def missingInV1 (v1 v2 : DataFrame) : List String :=
  v2.columns.filter (fun c => !(v1.columns.contains c))

/-- Embedding of `validate_columns` (lines 35-43). -/
def validate_columns (v1 v2 : DataFrame) : Except SchemaError Unit :=
  if columnsSetEqual v1 v2 then .ok ()
  else .error (.columnMismatch (missingInV2 v1 v2) (missingInV1 v1 v2))

/-- Core of `main` (lines 59-102): key validation first, then column-set
validation, then the four partitions.  An error means the run aborted before
producing any output frame. -/
def main (v1 v2 : DataFrame) (keys : List String) : Except SchemaError CompareResult :=
  match findMissingKey v1 v2 keys with
  | some k => .error (.missingKey k)
  | none =>
    match validate_columns v1 v2 with
    | .error e => .error e
    | .ok _ =>
      .ok { identicas := identicasDF v1 v2 keys
            diferentes := diferentesDF v1 v2 keys
            solo_v2 := soloDF v2 v1 keys
            solo_v1 := soloDF v1 v2 keys }

/-! Concrete frames used by witnesses and counterexamples. -/

/-- Old frame of the design document's concrete scenario. -/
def exV1 : DataFrame :=
  ⟨["ItemNo", "LocationCode", "Qty"], [["A1", "L1", "10"]]⟩

/-- New frame of the design document's concrete scenario. -/
def exV2 : DataFrame :=
  ⟨["ItemNo", "LocationCode", "Qty"], [["A1", "L1", "12"], ["A2", "L1", "5"]]⟩

/-- Frame whose single comparable value is the text `3`. -/
def strictV1 : DataFrame := ⟨["K", "Q"], [["k", "3"]]⟩

/-- Frame whose single comparable value is the text `3.0`. -/
def strictV2 : DataFrame := ⟨["K", "Q"], [["k", "3.0"]]⟩

/-- Frame with a duplicated key tuple and two distinct payloads. -/
def dupDF : DataFrame := ⟨["K", "A"], [["k", "a"], ["k", "b"]]⟩

/-- Second frame with the same duplicated key tuple. -/
def dupDF2 : DataFrame := ⟨["K", "A"], [["k", "c"], ["k", "d"]]⟩

/-- Two-row frame in one order. -/
def ordOld : DataFrame := ⟨["K", "A"], [["1", "a"], ["2", "b"]]⟩

/-- The same two rows in the opposite order. -/
def ordNew : DataFrame := ⟨["K", "A"], [["2", "b"], ["1", "a"]]⟩

/-- Frame whose key column sits last, not first. -/
def skewDF : DataFrame := ⟨["A", "K"], [["a", "k"]]⟩

/-- Frame with columns `K`, `A`. -/
def mmV1 : DataFrame := ⟨["K", "A"], [["k", "a"]]⟩

/-- Frame with column `K` only. -/
def mmV2 : DataFrame := ⟨["K"], [["k"]]⟩

/-- One-column one-row frame. -/
def tinyDF : DataFrame := ⟨["K"], [["k"]]⟩

/-- Result of comparing `tinyDF` against itself on key `K`. -/
def tinyOut : CompareResult :=
  { identicas := ⟨["K"], [["k"]]⟩
    diferentes := ⟨["K"], []⟩
    solo_v2 := ⟨["K"], []⟩
    solo_v1 := ⟨["K"], []⟩ }

/-- Result of the design document's concrete scenario. -/
def exOut : CompareResult :=
  { identicas := ⟨["ItemNo", "LocationCode", "Qty"], []⟩
    diferentes := ⟨["ItemNo", "LocationCode", "diff_cols", "Qty_v1", "Qty_v2"],
      [["A1", "L1", "Qty", "10", "12"]]⟩
    solo_v2 := ⟨["ItemNo", "LocationCode", "Qty"], [["A2", "L1", "5"]]⟩
    solo_v1 := ⟨["ItemNo", "LocationCode", "Qty"], []⟩ }

/-- Result of comparing `ordOld` against `ordNew` on key `K`. -/
def ordOut : CompareResult :=
  { identicas := ⟨["K", "A"], [["1", "a"], ["2", "b"]]⟩
    diferentes := ⟨["K", "A_v1", "A_v2"], []⟩
    solo_v2 := ⟨["K", "A"], []⟩
    solo_v1 := ⟨["K", "A"], []⟩ }

/-- Frame without the key column `K`. -/
def noKeyDF : DataFrame := ⟨["A"], [["a"]]⟩

/-- Rows of the `identicas` frame of a run, `[]` on failure. -/
def identicasRowsOf : Except SchemaError CompareResult → List Row
  | .ok o => o.identicas.rows
  | .error _ => []

/-- Rows of the `diferentes` frame of a run, `[]` on failure. -/
def diferentesRowsOf : Except SchemaError CompareResult → List Row
  | .ok o => o.diferentes.rows
  | .error _ => []

/-! General list lemmas used to reason about the join and the filters. -/

universe u v w

variable {α : Type u} {β : Type v} {κ : Type w}

theorem beq_flip [BEq κ] [LawfulBEq κ] (x y : κ) : (x == y) = (y == x) := by
  by_cases h : x = y
  · subst h; rfl
  · rw [beq_eq_false_iff_ne.mpr h, beq_eq_false_iff_ne.mpr (Ne.symm h)]

theorem countP_flip [BEq κ] [LawfulBEq κ] (f : β → κ) (k : κ) (l : List β) :
    l.countP (fun b => k == f b) = l.countP (fun b => f b == k) :=
  List.countP_congr (fun x _ => by rw [beq_flip])

theorem any_flip [BEq κ] [LawfulBEq κ] (f : β → κ) (k : κ) (l : List β) :
    l.any (fun b => k == f b) = l.any (fun b => f b == k) := by
  induction l with
  | nil => rfl
  | cons b l ih =>
    rw [List.any_cons, List.any_cons, ih, beq_flip k (f b)]

theorem countP_key [BEq κ] [LawfulBEq κ] (f : β → κ) (k : κ) (l : List β)
    (hnd : (l.map f).Nodup) :
    l.countP (fun b => f b == k) = if l.any (fun b => f b == k) then 1 else 0 := by
  induction l with
  | nil => rfl
  | cons b l ih =>
    rw [List.map_cons, List.nodup_cons] at hnd
    rw [List.countP_cons, ih hnd.2, List.any_cons]
    by_cases h : f b = k
    · have hany : l.any (fun x => f x == k) = false := by
        rw [Bool.eq_false_iff]
        intro hcontra
        rw [List.any_eq_true] at hcontra
        obtain ⟨x, hx, hfx⟩ := hcontra
        have hfx' : f x = k := beq_iff_eq.mp hfx
        refine hnd.1 ?_
        rw [h, ← hfx']
        exact List.mem_map_of_mem f hx
      simp [h, hany]
    · have hb : (f b == k) = false := by simp [h]
      rw [hb, Bool.false_or]
      simp

theorem filter_key_length [BEq κ] [LawfulBEq κ] (f : β → κ) (k : κ) (l : List β)
    (hnd : (l.map f).Nodup) :
    (l.filter (fun b => k == f b)).length = if l.any (fun b => k == f b) then 1 else 0 := by
  rw [← List.countP_eq_length_filter, countP_flip f k l, any_flip f k l,
    countP_key f k l hnd]

theorem count_filter_if [BEq α] [LawfulBEq α] (g : α → Bool) (r : α) (l : List α) :
    (l.filter g).count r = if g r = true then l.count r else 0 := by
  by_cases h : g r = true
  · rw [if_pos h, List.count_filter h]
  · rw [if_neg h, List.count_eq_zero]
    intro hmem
    exact h (List.mem_filter.mp hmem).2

theorem length_filter_split (g : α → Bool) (l : List α) :
    (l.filter g).length + (l.filter (fun x => !(g x))).length = l.length := by
  induction l with
  | nil => rfl
  | cons a l ih =>
    rw [List.filter_cons, List.filter_cons]
    cases hga : g a <;> simp [hga, List.length_cons] <;> omega

theorem countP_filter_split (g q : α → Bool) (l : List α) :
    (l.filter g).countP q + (l.filter (fun x => !(g x))).countP q = l.countP q := by
  induction l with
  | nil => rfl
  | cons a l ih =>
    rw [List.filter_cons, List.filter_cons, List.countP_cons]
    cases hga : g a <;> cases hqa : q a <;>
      simp [hga, hqa, List.countP_cons] <;> omega

theorem insertIdx_append_at (l1 l2 : List α) (x : α) :
    (l1 ++ l2).insertIdx l1.length x = l1 ++ x :: l2 := by
  induction l1 with
  | nil => simp [List.insertIdx_zero]
  | cons a l ih =>
    rw [List.cons_append, List.length_cons, List.insertIdx_succ_cons, ih, List.cons_append]

theorem cellAt_map (l : List String) (g : String → String) (c : String) (hc : c ∈ l) :
    cellAt l (l.map g) c = g c := by
  induction l with
  | nil => cases hc
  | cons a l ih =>
    rw [List.map_cons]
    unfold cellAt
    rw [List.zip_cons_cons, List.lookup_cons]
    by_cases h : c = a
    · subst h; simp
    · have hb : (c == a) = false := by simp [h]
      rw [hb]
      exact ih (List.mem_of_ne_of_mem h hc)

/-! Lemmas about `pairJoin`, the inner-join shape of `merged`. -/

theorem pairJoin_nil (l2 : List β) (p : α → β → Bool) : pairJoin ([] : List α) l2 p = [] := rfl

theorem pairJoin_cons (a : α) (l1 : List α) (l2 : List β) (p : α → β → Bool) :
    pairJoin (a :: l1) l2 p = (l2.filter (p a)).map (fun b => (a, b)) ++ pairJoin l1 l2 p := by
  simp [pairJoin, List.flatMap_cons]

theorem pairJoin_nil_right (l1 : List α) (p : α → β → Bool) :
    pairJoin l1 ([] : List β) p = [] := by
  induction l1 with
  | nil => rfl
  | cons a l ih => rw [pairJoin_cons, ih]; rfl

theorem mem_pairJoin {l1 : List α} {l2 : List β} {p : α → β → Bool} {a : α} {b : β} :
    (a, b) ∈ pairJoin l1 l2 p ↔ a ∈ l1 ∧ b ∈ l2 ∧ p a b = true := by
  simp only [pairJoin, List.mem_flatMap, List.mem_map, List.mem_filter, Prod.mk.injEq]
  constructor
  · rintro ⟨a', ha', b', ⟨hb', hp⟩, rfl, rfl⟩
    exact ⟨ha', hb', hp⟩
  · rintro ⟨ha, hb, hp⟩
    exact ⟨a, ha, b, ⟨hb, hp⟩, rfl, rfl⟩

theorem countP_fst_pairJoin [BEq α] [LawfulBEq α] (l1 : List α) (l2 : List β)
    (p : α → β → Bool) (a0 : α) :
    (pairJoin l1 l2 p).countP (fun q => q.1 == a0) = l1.count a0 * l2.countP (p a0) := by
  induction l1 with
  | nil => simp [pairJoin]
  | cons a l ih =>
    rw [pairJoin_cons, List.countP_append, ih, List.count_cons, List.countP_map]
    have hcomp : ((fun q : α × β => q.1 == a0) ∘ fun b => (a, b)) = fun _ => a == a0 := rfl
    rw [hcomp]
    by_cases h : a = a0
    · subst h
      have h1 : (a == a) = true := by simp
      rw [h1]
      simp only [List.countP_true, ← List.countP_eq_length_filter, if_pos]
      ring
    · have h1 : (a == a0) = false := by simp [h]
      rw [h1]
      simp only [List.countP_false, Function.const_apply, if_neg]
      simp

theorem countP_snd_pairJoin [BEq β] [LawfulBEq β] (l1 : List α) (l2 : List β)
    (p : α → β → Bool) (b0 : β) :
    (pairJoin l1 l2 p).countP (fun q => q.2 == b0)
      = l1.countP (fun a => p a b0) * l2.count b0 := by
  induction l1 with
  | nil => simp [pairJoin]
  | cons a l ih =>
    rw [pairJoin_cons, List.countP_append, ih, List.countP_cons, List.countP_map]
    have hcomp : ((fun q : α × β => q.2 == b0) ∘ fun b => (a, b)) = fun b => b == b0 := rfl
    rw [hcomp]
    have hblock : (l2.filter (p a)).countP (fun b => b == b0)
        = if p a b0 = true then l2.count b0 else 0 := by
      by_cases h : p a b0 = true
      · rw [if_pos h]
        show (l2.filter (p a)).count b0 = l2.count b0
        exact List.count_filter h
      · rw [if_neg h, List.countP_eq_zero]
        intro x hx hpx
        rw [List.mem_filter] at hx
        have hx0 : x = b0 := beq_iff_eq.mp hpx
        subst hx0
        exact h hx.2
    rw [hblock]
    by_cases h : p a b0 = true <;> simp [h] <;> ring

theorem countP_keyclass_pairJoin [BEq κ] [LawfulBEq κ] (f1 : α → κ) (f2 : β → κ)
    (l1 : List α) (l2 : List β) (K : κ) :
    (pairJoin l1 l2 (fun a b => f1 a == f2 b)).countP (fun q => f1 q.1 == K)
      = l1.countP (fun a => f1 a == K) * l2.countP (fun b => f2 b == K) := by
  induction l1 with
  | nil => simp [pairJoin]
  | cons a l ih =>
    rw [pairJoin_cons, List.countP_append, ih, List.countP_cons, List.countP_map]
    have hcomp : ((fun q : α × β => f1 q.1 == K) ∘ fun b => (a, b)) = fun _ => f1 a == K := rfl
    rw [hcomp]
    by_cases h : f1 a = K
    · have h1 : (f1 a == K) = true := by simp [h]
      rw [h1]
      have hlen : (l2.filter (fun b => f1 a == f2 b)).countP (fun _ => true)
          = l2.countP (fun b => f2 b == K) := by
        rw [List.countP_true, ← List.countP_eq_length_filter, countP_flip f2 (f1 a) l2, h]
      rw [hlen]
      simp only [if_pos]
      ring
    · have h1 : (f1 a == K) = false := by simp [h]
      rw [h1]
      simp only [List.countP_false, Function.const_apply, if_neg]
      simp

theorem length_pairJoin_cons_right (l1 : List α) (b : β) (l2 : List β) (p : α → β → Bool) :
    (pairJoin l1 (b :: l2) p).length
      = l1.countP (fun a => p a b) + (pairJoin l1 l2 p).length := by
  induction l1 with
  | nil => rfl
  | cons a l ih =>
    rw [pairJoin_cons, pairJoin_cons, List.length_append, List.length_append, ih,
      List.length_map, List.length_map, List.filter_cons, List.countP_cons]
    by_cases h : p a b = true <;> simp [h] <;> omega

theorem length_pairJoin_left [BEq κ] [LawfulBEq κ] (f1 : α → κ) (f2 : β → κ)
    (l1 : List α) (l2 : List β) (hnd : (l2.map f2).Nodup) :
    (pairJoin l1 l2 (fun a b => f1 a == f2 b)).length
      = (l1.filter (fun a => l2.any (fun b => f1 a == f2 b))).length := by
  induction l1 with
  | nil => rfl
  | cons a l ih =>
    rw [pairJoin_cons, List.length_append, List.length_map, ih, List.filter_cons,
      filter_key_length f2 (f1 a) l2 hnd]
    by_cases h : l2.any (fun b => f1 a == f2 b) = true <;> simp [h] <;> omega

theorem length_pairJoin_right [BEq κ] [LawfulBEq κ] (f1 : α → κ) (f2 : β → κ)
    (l1 : List α) (l2 : List β) (hnd : (l1.map f1).Nodup) :
    (pairJoin l1 l2 (fun a b => f1 a == f2 b)).length
      = (l2.filter (fun b => l1.any (fun a => f1 a == f2 b))).length := by
  induction l2 with
  | nil => rw [pairJoin_nil_right]; rfl
  | cons b l2 ih =>
    rw [length_pairJoin_cons_right, ih, List.filter_cons,
      countP_key f1 (f2 b) l1 hnd]
    by_cases h : l1.any (fun a => f1 a == f2 b) = true <;> simp [h] <;> omega

theorem map_fst_pairJoin [BEq κ] [LawfulBEq κ] (f1 : α → κ) (f2 : β → κ)
    (l1 : List α) (l2 : List β) (hnd : (l2.map f2).Nodup) :
    (pairJoin l1 l2 (fun a b => f1 a == f2 b)).map Prod.fst
      = l1.filter (fun a => l2.any (fun b => f1 a == f2 b)) := by
  induction l1 with
  | nil => rfl
  | cons a l ih =>
    rw [pairJoin_cons, List.map_append, ih, List.map_map, List.filter_cons]
    have hcomp : (Prod.fst ∘ fun b : β => (a, b)) = Function.const β a := rfl
    rw [hcomp, List.map_const, filter_key_length f2 (f1 a) l2 hnd]
    by_cases h : l2.any (fun b => f1 a == f2 b) = true <;> simp [h]

theorem map_fst_pairJoin_replicate (l1 : List α) (l2 : List β) (p : α → β → Bool) :
    (pairJoin l1 l2 p).map Prod.fst
      = l1.flatMap (fun a => List.replicate (l2.countP (p a)) a) := by
  induction l1 with
  | nil => rfl
  | cons a l ih =>
    rw [pairJoin_cons, List.map_append, ih, List.flatMap_cons, List.map_map]
    have hcomp : (Prod.fst ∘ fun b : β => (a, b)) = Function.const β a := rfl
    rw [hcomp, List.map_const, List.countP_eq_length_filter]

theorem map_snd_pairJoin (l1 : List α) (l2 : List β) (p : α → β → Bool) :
    (pairJoin l1 l2 p).map Prod.snd = l1.flatMap (fun a => l2.filter (p a)) := by
  induction l1 with
  | nil => rfl
  | cons a l ih =>
    rw [pairJoin_cons, List.map_append, ih, List.flatMap_cons, List.map_map]
    have hcomp : (Prod.snd ∘ fun b : β => (a, b)) = id := rfl
    rw [hcomp, List.map_id]

/-! Bridge lemmas: the result frames in terms of the join and the filters. -/

theorem main_ok_elim (v1 v2 : DataFrame) (keys : List String) (out : CompareResult)
    (h : main v1 v2 keys = Except.ok out) :
    out = { identicas := identicasDF v1 v2 keys
            diferentes := diferentesDF v1 v2 keys
            solo_v2 := soloDF v2 v1 keys
            solo_v1 := soloDF v1 v2 keys } := by
  unfold main at h
  cases hf : findMissingKey v1 v2 keys with
  | some k => rw [hf] at h; cases h
  | none =>
    rw [hf] at h
    unfold validate_columns at h
    by_cases hc : columnsSetEqual v1 v2 = true
    · rw [if_pos hc] at h
      injection h with h
      exact h.symm
    · rw [if_neg hc] at h
      cases h

theorem identicasDF_rows_length (v1 v2 : DataFrame) (keys : List String) :
    (identicasDF v1 v2 keys).rows.length = (identPairs v1 v2 keys).length := by
  simp [identicasDF]

theorem diferentesDF_rows_length (v1 v2 : DataFrame) (keys : List String) :
    (diferentesDF v1 v2 keys).rows.length = (diffPairs v1 v2 keys).length := by
  unfold diferentesDF
  by_cases h : (diffPairs v1 v2 keys).isEmpty = true
  · rw [if_pos h]
    rw [List.isEmpty_iff] at h
    simp [h]
  · rw [if_neg h]
    simp

theorem count_eq_one_of_nodup_mem [BEq α] [LawfulBEq α] {l : List α} {r : α}
    (hnd : l.Nodup) (hr : r ∈ l) : l.count r = 1 := by
  induction l with
  | nil => cases hr
  | cons a l ih =>
    rw [List.nodup_cons] at hnd
    rw [List.count_cons]
    by_cases h : a = r
    · subst h
      have hz : l.count a = 0 := List.count_eq_zero.mpr hnd.1
      simp [hz]
    · have hb : (a == r) = false := by simp [h]
      have hrl : r ∈ l := by
        cases hr with
        | head => exact absurd rfl h
        | tail _ hrl => exact hrl
      simp [hb, ih hnd.2 hrl]

theorem aligned_countP_split (v1 v2 : DataFrame) (keys : List String) (q : Row × Row → Bool) :
    (identPairs v1 v2 keys).countP q + (diffPairs v1 v2 keys).countP q
      = (alignedPairs v1 v2 keys).countP q := by
  unfold identPairs diffPairs
  exact countP_filter_split _ q _

theorem aligned_length_split (v1 v2 : DataFrame) (keys : List String) :
    (identPairs v1 v2 keys).length + (diffPairs v1 v2 keys).length
      = (alignedPairs v1 v2 keys).length := by
  unfold identPairs diffPairs
  exact length_filter_split _ _

/-! Claim theorems. -/

/-- C1: for every pair of input datasets with valid matching schemas (a
successful run) and no duplicate key tuples on either side, the counts
satisfy `|old| = identical + differing + old_only` and `|new| = identical +
differing + new_only`, and each old record participates in exactly one of
the Identical pairs, the Differing pairs, or the old-only rows (as its
v1-side), and likewise each new record as a v2-side or a new-only row. -/
theorem C1_partition_and_counts (v1 v2 : DataFrame) (keys : List String) (out : CompareResult)
    (hok : main v1 v2 keys = Except.ok out)
    (h1 : (v1.rows.map (keyTuple v1.columns keys)).Nodup)
    (h2 : (v2.rows.map (keyTuple v2.columns keys)).Nodup) :
    v1.rows.length
        = out.identicas.rows.length + out.diferentes.rows.length + out.solo_v1.rows.length
      ∧ v2.rows.length
        = out.identicas.rows.length + out.diferentes.rows.length + out.solo_v2.rows.length
      ∧ (∀ r ∈ v1.rows,
          (identPairs v1 v2 keys).countP (fun p => p.1 == r)
            + (diffPairs v1 v2 keys).countP (fun p => p.1 == r)
            + out.solo_v1.rows.count r = 1)
      ∧ (∀ r ∈ v2.rows,
          (identPairs v1 v2 keys).countP (fun p => p.2 == r)
            + (diffPairs v1 v2 keys).countP (fun p => p.2 == r)
            + out.solo_v2.rows.count r = 1) := by
  have hout := main_ok_elim v1 v2 keys out hok
  subst hout
  dsimp only
  have hnd1 : v1.rows.Nodup := List.Nodup.of_map _ h1
  have hnd2 : v2.rows.Nodup := List.Nodup.of_map _ h2
  refine ⟨?_, ?_, ?_, ?_⟩
  · -- |old| = identical + differing + old_only
    have hsplit := aligned_length_split v1 v2 keys
    have hleft : (alignedPairs v1 v2 keys).length
        = (v1.rows.filter (fun r => v2.rows.any (fun s =>
            keyTuple v1.columns keys r == keyTuple v2.columns keys s))).length :=
      length_pairJoin_left (keyTuple v1.columns keys) (keyTuple v2.columns keys)
        v1.rows v2.rows h2
    have hcover := length_filter_split (fun r => v2.rows.any (fun s =>
      keyTuple v1.columns keys r == keyTuple v2.columns keys s)) v1.rows
    rw [identicasDF_rows_length, diferentesDF_rows_length]
    show v1.rows.length
      = (identPairs v1 v2 keys).length + (diffPairs v1 v2 keys).length
        + (v1.rows.filter (fun r => !(v2.rows.any (fun s =>
            keyTuple v1.columns keys r == keyTuple v2.columns keys s)))).length
    omega
  · -- |new| = identical + differing + new_only
    have hsplit := aligned_length_split v1 v2 keys
    have hright : (alignedPairs v1 v2 keys).length
        = (v2.rows.filter (fun r => v1.rows.any (fun s =>
            keyTuple v1.columns keys s == keyTuple v2.columns keys r))).length :=
      length_pairJoin_right (keyTuple v1.columns keys) (keyTuple v2.columns keys)
        v1.rows v2.rows h1
    have hflip : (v2.rows.filter (fun r => v1.rows.any (fun s =>
          keyTuple v1.columns keys s == keyTuple v2.columns keys r)))
        = (v2.rows.filter (fun r => v1.rows.any (fun s =>
          keyTuple v2.columns keys r == keyTuple v1.columns keys s))) :=
      List.filter_congr (fun r _ =>
        (any_flip (keyTuple v1.columns keys) (keyTuple v2.columns keys r) v1.rows).symm)
    rw [hflip] at hright
    have hcover := length_filter_split (fun r => v1.rows.any (fun s =>
      keyTuple v2.columns keys r == keyTuple v1.columns keys s)) v2.rows
    rw [identicasDF_rows_length, diferentesDF_rows_length]
    show v2.rows.length
      = (identPairs v1 v2 keys).length + (diffPairs v1 v2 keys).length
        + (v2.rows.filter (fun r => !(v1.rows.any (fun s =>
            keyTuple v2.columns keys r == keyTuple v1.columns keys s)))).length
    omega
  · -- each old record in exactly one partition
    intro r hr
    have hsplit := aligned_countP_split v1 v2 keys (fun p => p.1 == r)
    have hfst : (alignedPairs v1 v2 keys).countP (fun p => p.1 == r)
        = v1.rows.count r * v2.rows.countP (fun s =>
            keyTuple v1.columns keys r == keyTuple v2.columns keys s) :=
      countP_fst_pairJoin v1.rows v2.rows _ r
    have hone : v1.rows.count r = 1 := count_eq_one_of_nodup_mem hnd1 hr
    have hkey : v2.rows.countP (fun s =>
          keyTuple v1.columns keys r == keyTuple v2.columns keys s)
        = if v2.rows.any (fun s =>
            keyTuple v1.columns keys r == keyTuple v2.columns keys s) then 1 else 0 := by
      rw [countP_flip (keyTuple v2.columns keys) (keyTuple v1.columns keys r) v2.rows,
        any_flip (keyTuple v2.columns keys) (keyTuple v1.columns keys r) v2.rows,
        countP_key (keyTuple v2.columns keys) (keyTuple v1.columns keys r) v2.rows h2]
    have hsolo : (soloDF v1 v2 keys).rows.count r
        = if v2.rows.any (fun s =>
            keyTuple v1.columns keys r == keyTuple v2.columns keys s) then 0 else 1 := by
      show (v1.rows.filter _).count r = _
      rw [count_filter_if, hone]
      by_cases h : (v2.rows.any (fun s =>
          keyTuple v1.columns keys r == keyTuple v2.columns keys s)) = true
      · rw [h]; simp
      · rw [Bool.eq_false_iff.mpr h]; simp
    by_cases h : (v2.rows.any (fun s =>
        keyTuple v1.columns keys r == keyTuple v2.columns keys s)) = true
    · rw [h] at hkey hsolo
      simp only [if_pos] at hkey hsolo
      have haligned : (alignedPairs v1 v2 keys).countP (fun p => p.1 == r) = 1 := by
        rw [hfst, hone, hkey]
      omega
    · rw [Bool.eq_false_iff.mpr h] at hkey hsolo
      simp only [Bool.false_eq_true, if_false] at hkey hsolo
      have haligned : (alignedPairs v1 v2 keys).countP (fun p => p.1 == r) = 0 := by
        rw [hfst, hone, hkey]
      omega
  · -- each new record in exactly one partition
    intro r hr
    have hsplit := aligned_countP_split v1 v2 keys (fun p => p.2 == r)
    have hsnd : (alignedPairs v1 v2 keys).countP (fun p => p.2 == r)
        = v1.rows.countP (fun s =>
            keyTuple v1.columns keys s == keyTuple v2.columns keys r) * v2.rows.count r :=
      countP_snd_pairJoin v1.rows v2.rows _ r
    have hone : v2.rows.count r = 1 := count_eq_one_of_nodup_mem hnd2 hr
    have hkey : v1.rows.countP (fun s =>
          keyTuple v1.columns keys s == keyTuple v2.columns keys r)
        = if v1.rows.any (fun s =>
            keyTuple v1.columns keys s == keyTuple v2.columns keys r) then 1 else 0 :=
      countP_key (keyTuple v1.columns keys) (keyTuple v2.columns keys r) v1.rows h1
    have hsolo : (soloDF v2 v1 keys).rows.count r
        = if v1.rows.any (fun s =>
            keyTuple v1.columns keys s == keyTuple v2.columns keys r) then 0 else 1 := by
      show (v2.rows.filter _).count r = _
      rw [count_filter_if, hone]
      have horient : (v1.rows.any (fun s =>
            keyTuple v2.columns keys r == keyTuple v1.columns keys s))
          = (v1.rows.any (fun s =>
            keyTuple v1.columns keys s == keyTuple v2.columns keys r)) :=
        any_flip (keyTuple v1.columns keys) (keyTuple v2.columns keys r) v1.rows
      rw [horient]
      by_cases h : (v1.rows.any (fun s =>
          keyTuple v1.columns keys s == keyTuple v2.columns keys r)) = true
      · rw [h]; simp
      · rw [Bool.eq_false_iff.mpr h]; simp
    by_cases h : (v1.rows.any (fun s =>
        keyTuple v1.columns keys s == keyTuple v2.columns keys r)) = true
    · rw [h] at hkey hsolo
      simp only [if_pos] at hkey hsolo
      have haligned : (alignedPairs v1 v2 keys).countP (fun p => p.2 == r) = 1 := by
        rw [hsnd, hone, hkey]
      omega
    · rw [Bool.eq_false_iff.mpr h] at hkey hsolo
      simp only [Bool.false_eq_true, if_false] at hkey hsolo
      have haligned : (alignedPairs v1 v2 keys).countP (fun p => p.2 == r) = 0 := by
        rw [hsnd, hone, hkey]
      omega

/-- Witness for C1 at a concrete one-row run. -/
theorem C1_witness :
    main tinyDF tinyDF ["K"] = Except.ok tinyOut
      ∧ (tinyDF.rows.map (keyTuple tinyDF.columns ["K"])).Nodup
      ∧ (tinyDF.rows.length
            = tinyOut.identicas.rows.length + tinyOut.diferentes.rows.length
              + tinyOut.solo_v1.rows.length
          ∧ tinyDF.rows.length
            = tinyOut.identicas.rows.length + tinyOut.diferentes.rows.length
              + tinyOut.solo_v2.rows.length
          ∧ (∀ r ∈ tinyDF.rows,
              (identPairs tinyDF tinyDF ["K"]).countP (fun p => p.1 == r)
                + (diffPairs tinyDF tinyDF ["K"]).countP (fun p => p.1 == r)
                + tinyOut.solo_v1.rows.count r = 1)
          ∧ (∀ r ∈ tinyDF.rows,
              (identPairs tinyDF tinyDF ["K"]).countP (fun p => p.2 == r)
                + (diffPairs tinyDF tinyDF ["K"]).countP (fun p => p.2 == r)
                + tinyOut.solo_v2.rows.count r = 1)) :=
  ⟨by rfl, by decide,
    C1_partition_and_counts tinyDF tinyDF ["K"] tinyOut (by rfl) (by decide) (by decide)⟩

/-- C2: an aligned pair is classified Identical iff every comparable column
compares equal, by exact equality of the stored text values with no
normalization or tolerance — in particular the pair with old value `3` and
new value `3.0` on the single comparable column of `strictV1`/`strictV2` is
classified Differing, not Identical. -/
theorem C2_exact_equality (v1 v2 : DataFrame) (keys : List String) (p : Row × Row)
    (hp : p ∈ alignedPairs v1 v2 keys) :
    (p ∈ identPairs v1 v2 keys ↔
        ∀ c ∈ colsToCompare v1 keys, cellAt v1.columns p.1 c = cellAt v2.columns p.2 c)
      ∧ (p ∈ diffPairs v1 v2 keys ↔
        ¬∀ c ∈ colsToCompare v1 keys, cellAt v1.columns p.1 c = cellAt v2.columns p.2 c)
      ∧ (["k", "3"], ["k", "3.0"]) ∈ diffPairs strictV1 strictV2 ["K"]
      ∧ identPairs strictV1 strictV2 ["K"] = [] := by
  have hiff : (rowIdentical v1.columns v2.columns (colsToCompare v1 keys) p.1 p.2 = true)
      ↔ ∀ c ∈ colsToCompare v1 keys, cellAt v1.columns p.1 c = cellAt v2.columns p.2 c := by
    unfold rowIdentical
    rw [List.all_eq_true]
    constructor
    · intro h c hc
      exact beq_iff_eq.mp (h c hc)
    · intro h c hc
      exact beq_iff_eq.mpr (h c hc)
  refine ⟨?_, ?_, by decide, by decide⟩
  · unfold identPairs
    rw [List.mem_filter]
    constructor
    · intro h
      exact hiff.mp h.2
    · intro h
      exact ⟨hp, hiff.mpr h⟩
  · unfold diffPairs
    rw [List.mem_filter]
    constructor
    · rintro ⟨-, h⟩ hall
      rw [Bool.not_eq_true'] at h
      rw [hiff.mpr hall] at h
      simp at h
    · intro h
      refine ⟨hp, ?_⟩
      have hfalse : rowIdentical v1.columns v2.columns (colsToCompare v1 keys) p.1 p.2
          = false := by
        cases hh : rowIdentical v1.columns v2.columns (colsToCompare v1 keys) p.1 p.2 with
        | false => rfl
        | true => exact absurd (hiff.mp hh) h
      rw [hfalse]
      rfl

/-- Witness for C2 at the `3` versus `3.0` pair. -/
theorem C2_witness :
    (["k", "3"], ["k", "3.0"]) ∈ alignedPairs strictV1 strictV2 ["K"]
      ∧ (((["k", "3"], ["k", "3.0"]) ∈ identPairs strictV1 strictV2 ["K"] ↔
            ∀ c ∈ colsToCompare strictV1 ["K"],
              cellAt strictV1.columns ["k", "3"] c = cellAt strictV2.columns ["k", "3.0"] c)
          ∧ ((["k", "3"], ["k", "3.0"]) ∈ diffPairs strictV1 strictV2 ["K"] ↔
            ¬∀ c ∈ colsToCompare strictV1 ["K"],
              cellAt strictV1.columns ["k", "3"] c = cellAt strictV2.columns ["k", "3.0"] c)
          ∧ (["k", "3"], ["k", "3.0"]) ∈ diffPairs strictV1 strictV2 ["K"]
          ∧ identPairs strictV1 strictV2 ["K"] = []) :=
  ⟨by decide, C2_exact_equality strictV1 strictV2 ["K"] (["k", "3"], ["k", "3.0"]) (by decide)⟩

/-- C3 counterexample: with old columns `["A","K"]` and key `K`, the single
identical aligned pair of a self-comparison yields the output row
`["k","a"]` under the header `["A","K"]`: the value stored under column `A`
is `k`, the old record's value at `K`, whereas the old record's value at
`A` is `a` — the positional relabelling misassigns values when the key
columns are not the leading columns. -/
theorem C3_counterexample :
    identicasRowsOf (main skewDF skewDF ["K"]) = [["k", "a"]]
      ∧ cellAt ["A", "K"] ["k", "a"] "A" = "k"
      ∧ cellAt ["A", "K"] ["a", "k"] "A" = "a"
      ∧ ("k" : String) ≠ "a" :=
  ⟨by rfl, by rfl, by rfl, by decide⟩

/-- C3 (amended): the Identical frame's header is the old dataset's column
list, its rows are the old-side selections, and — provided the key columns
occupy the leading positions of the old dataset's column order, in key
order — the value of an identical row under every column name is the
old-side record's value at that same column.  (The unamended claim, for
arbitrary key positions, fails: see the counterexample.) -/
theorem C3_identicas_layout (v1 v2 : DataFrame) (keys : List String) (out : CompareResult)
    (hok : main v1 v2 keys = Except.ok out)
    (hcols : v1.columns = keys ++ colsToCompare v1 keys) :
    out.identicas.columns = v1.columns
      ∧ out.identicas.rows = (identPairs v1 v2 keys).map (fun p => identRow v1 keys p.1)
      ∧ ∀ r1 : Row, ∀ c ∈ v1.columns,
          cellAt v1.columns (identRow v1 keys r1) c = cellAt v1.columns r1 c := by
  have hout := main_ok_elim v1 v2 keys out hok
  subst hout
  dsimp only
  refine ⟨rfl, rfl, ?_⟩
  intro r1 c hc
  unfold identRow
  rw [show keys.map (cellAt v1.columns r1)
        ++ (colsToCompare v1 keys).map (cellAt v1.columns r1)
      = (keys ++ colsToCompare v1 keys).map (cellAt v1.columns r1) from
    (List.map_append _ _ _).symm]
  rw [hcols] at hc ⊢
  exact cellAt_map _ _ c hc

/-- Witness for C3 (amended) at a concrete run whose keys lead the column
order. -/
theorem C3_witness :
    main tinyDF tinyDF ["K"] = Except.ok tinyOut
      ∧ tinyDF.columns = ["K"] ++ colsToCompare tinyDF ["K"]
      ∧ (tinyOut.identicas.columns = tinyDF.columns
          ∧ tinyOut.identicas.rows
            = (identPairs tinyDF tinyDF ["K"]).map (fun p => identRow tinyDF ["K"] p.1)
          ∧ ∀ r1 : Row, ∀ c ∈ tinyDF.columns,
              cellAt tinyDF.columns (identRow tinyDF ["K"] r1) c
                = cellAt tinyDF.columns r1 c) :=
  ⟨by rfl, by rfl, C3_identicas_layout tinyDF tinyDF ["K"] tinyOut (by rfl) (by rfl)⟩

theorem filter_singleton_of_unique {l : List α} {q : α → Bool} {X : α}
    (hnd : l.Nodup) (hX : X ∈ l) (hq : ∀ c ∈ l, q c = true ↔ c = X) :
    l.filter q = [X] := by
  induction l with
  | nil => cases hX
  | cons a l ih =>
    rw [List.nodup_cons] at hnd
    rw [List.filter_cons]
    by_cases h : a = X
    · subst h
      rw [if_pos ((hq a (List.mem_cons_self a l)).mpr rfl)]
      have hnil : l.filter q = [] := by
        rw [List.filter_eq_nil_iff]
        intro c hc hqc
        have hca : c = a := (hq c (List.mem_cons_of_mem a hc)).mp hqc
        subst hca
        exact hnd.1 hc
      rw [hnil]
    · have hqa : ¬(q a = true) := fun hqa => h ((hq a (List.mem_cons_self a l)).mp hqa)
      rw [if_neg hqa]
      have hXl : X ∈ l := by
        cases hX with
        | head => exact absurd rfl h
        | tail _ hXl => exact hXl
      exact ih hnd.2 hXl (fun c hc => hq c (List.mem_cons_of_mem a hc))

/-- C4: for every differing aligned pair, the Differing frame's header is
the key columns, then `diff_cols` immediately after them, then every
v1-side comparable column, then every v2-side comparable column; each
differing row carries the key values, the comma-joined differing-column
text (with the names in comparable-column-set definition order and no
escaping), the v1-side values, then the v2-side values; and a pair
disagreeing on exactly one column X yields exactly the list `[X]`. -/
theorem C4_differing_layout (v1 v2 : DataFrame) (keys : List String) (out : CompareResult)
    (hok : main v1 v2 keys = Except.ok out)
    (p : Row × Row) (hp : p ∈ diffPairs v1 v2 keys) (hnd : v1.columns.Nodup) :
    out.diferentes.columns
        = keys ++ "diff_cols"
            :: ((colsToCompare v1 keys).map (fun c => c ++ "_v1")
              ++ (colsToCompare v1 keys).map (fun c => c ++ "_v2"))
      ∧ out.diferentes.rows
        = (diffPairs v1 v2 keys).map (fun q =>
            keys.map (cellAt v1.columns q.1)
              ++ diffColsText v1.columns v2.columns (colsToCompare v1 keys) q.1 q.2
                :: ((colsToCompare v1 keys).map (cellAt v1.columns q.1)
                  ++ (colsToCompare v1 keys).map (cellAt v2.columns q.2)))
      ∧ diffColsText v1.columns v2.columns (colsToCompare v1 keys) p.1 p.2
        = String.intercalate ","
            ((colsToCompare v1 keys).filter (fun c =>
              cellAt v1.columns p.1 c != cellAt v2.columns p.2 c))
      ∧ ∀ X ∈ colsToCompare v1 keys,
          (∀ c ∈ colsToCompare v1 keys,
            (cellAt v1.columns p.1 c ≠ cellAt v2.columns p.2 c ↔ c = X)) →
          diffColNames v1.columns v2.columns (colsToCompare v1 keys) p.1 p.2 = [X] := by
  have hout := main_ok_elim v1 v2 keys out hok
  subst hout
  dsimp only
  have hne : ¬((diffPairs v1 v2 keys).isEmpty = true) := by
    rw [List.isEmpty_iff]
    exact List.ne_nil_of_mem hp
  refine ⟨?_, ?_, rfl, ?_⟩
  · unfold diferentesDF
    rw [if_neg hne]
    dsimp only
    unfold diferentesSelCols
    rw [List.append_assoc, insertIdx_append_at]
  · unfold diferentesDF
    rw [if_neg hne]
    dsimp only
    refine List.map_congr_left ?_
    intro q _
    unfold diferentesSelRow
    rw [List.append_assoc,
      ← List.length_map keys (cellAt v1.columns q.1), insertIdx_append_at]
  · intro X hX hiff
    unfold diffColNames
    refine filter_singleton_of_unique (List.Nodup.filter _ hnd) hX ?_
    intro c hc
    exact Iff.trans bne_iff_ne (hiff c hc)

/-- Witness for C4 at the design document's concrete scenario. -/
theorem C4_witness :
    main exV1 exV2 ["ItemNo", "LocationCode"] = Except.ok exOut
      ∧ (["A1", "L1", "10"], ["A1", "L1", "12"])
          ∈ diffPairs exV1 exV2 ["ItemNo", "LocationCode"]
      ∧ exV1.columns.Nodup
      ∧ (exOut.diferentes.columns
            = ["ItemNo", "LocationCode"] ++ "diff_cols"
                :: ((colsToCompare exV1 ["ItemNo", "LocationCode"]).map (fun c => c ++ "_v1")
                  ++ (colsToCompare exV1 ["ItemNo", "LocationCode"]).map (fun c => c ++ "_v2"))
          ∧ exOut.diferentes.rows
            = (diffPairs exV1 exV2 ["ItemNo", "LocationCode"]).map (fun q =>
                ["ItemNo", "LocationCode"].map (cellAt exV1.columns q.1)
                  ++ diffColsText exV1.columns exV2.columns
                      (colsToCompare exV1 ["ItemNo", "LocationCode"]) q.1 q.2
                    :: ((colsToCompare exV1 ["ItemNo", "LocationCode"]).map
                          (cellAt exV1.columns q.1)
                      ++ (colsToCompare exV1 ["ItemNo", "LocationCode"]).map
                          (cellAt exV2.columns q.2)))
          ∧ diffColsText exV1.columns exV2.columns
              (colsToCompare exV1 ["ItemNo", "LocationCode"])
              ["A1", "L1", "10"] ["A1", "L1", "12"]
            = String.intercalate ","
                ((colsToCompare exV1 ["ItemNo", "LocationCode"]).filter (fun c =>
                  cellAt exV1.columns ["A1", "L1", "10"] c
                    != cellAt exV2.columns ["A1", "L1", "12"] c))
          ∧ ∀ X ∈ colsToCompare exV1 ["ItemNo", "LocationCode"],
              (∀ c ∈ colsToCompare exV1 ["ItemNo", "LocationCode"],
                (cellAt exV1.columns ["A1", "L1", "10"] c
                    ≠ cellAt exV2.columns ["A1", "L1", "12"] c ↔ c = X)) →
              diffColNames exV1.columns exV2.columns
                (colsToCompare exV1 ["ItemNo", "LocationCode"])
                ["A1", "L1", "10"] ["A1", "L1", "12"] = [X]) :=
  ⟨by rfl, by decide, by decide,
    C4_differing_layout exV1 exV2 ["ItemNo", "LocationCode"] exOut (by rfl)
      (["A1", "L1", "10"], ["A1", "L1", "12"]) (by decide) (by decide)⟩

/-- C5 counterexample: with old columns `{K, A}`, new columns `{K}` and
requested key `A`, the column sets are not set-equal, yet the run fails
with the key-missing error — not with the SchemaError listing the columns
missing from each side — because the key check of lines 60-63 runs before
`validate_columns`. -/
theorem C5_counterexample :
    columnsSetEqual mmV1 mmV2 = false
      ∧ main mmV1 mmV2 ["A"] = Except.error (SchemaError.missingKey "A")
      ∧ SchemaError.missingKey "A"
          ≠ SchemaError.columnMismatch (missingInV2 mmV1 mmV2) (missingInV1 mmV1 mmV2) :=
  ⟨by rfl, by rfl, by decide⟩

/-- C5 (amended): provided every requested key column is present in both
datasets, a pair of datasets whose column sets are not set-equal makes the
run fail with the SchemaError listing the columns missing from V2 and from
V1 respectively, and no output frames are produced (the run never reaches
row-level processing).  When a requested key is also missing, the key error
of lines 60-63 is reported instead (see the counterexample). -/
theorem C5_schema_mismatch (v1 v2 : DataFrame) (keys : List String)
    (hkeys : findMissingKey v1 v2 keys = none)
    (hs : columnsSetEqual v1 v2 = false) :
    main v1 v2 keys
        = Except.error (SchemaError.columnMismatch (missingInV2 v1 v2) (missingInV1 v1 v2))
      ∧ ∀ out : CompareResult, main v1 v2 keys ≠ Except.ok out := by
  have hmain : main v1 v2 keys
      = Except.error (SchemaError.columnMismatch (missingInV2 v1 v2) (missingInV1 v1 v2)) := by
    unfold main
    rw [hkeys]
    unfold validate_columns
    have hneg : ¬(columnsSetEqual v1 v2 = true) := by
      rw [hs]
      simp
    rw [if_neg hneg]
  refine ⟨hmain, ?_⟩
  intro out hcontra
  rw [hmain] at hcontra
  cases hcontra

/-- Witness for C5 (amended): both frames contain the key `K`, but only the
old frame has column `A`. -/
theorem C5_witness :
    findMissingKey mmV1 mmV2 ["K"] = none
      ∧ columnsSetEqual mmV1 mmV2 = false
      ∧ (main mmV1 mmV2 ["K"]
            = Except.error
                (SchemaError.columnMismatch (missingInV2 mmV1 mmV2) (missingInV1 mmV1 mmV2))
          ∧ ∀ out : CompareResult, main mmV1 mmV2 ["K"] ≠ Except.ok out) :=
  ⟨by rfl, by rfl, C5_schema_mismatch mmV1 mmV2 ["K"] (by rfl) (by rfl)⟩

/-- C6 counterexample: two runs — one where only the old frame lacks the
key `K`, one where only the new frame lacks it — fail with the same
`missingKey "K"` error and hence the same message, so the error names the
missing key but does not identify which side lacks it. -/
theorem C6_counterexample :
    main noKeyDF mmV1 ["K"] = Except.error (SchemaError.missingKey "K")
      ∧ main mmV1 noKeyDF ["K"] = Except.error (SchemaError.missingKey "K")
      ∧ "K" ∉ noKeyDF.columns
      ∧ "K" ∈ mmV1.columns
      ∧ errorMessage (SchemaError.missingKey "K")
          = "[ERROR] La clave \x27K\x27 no existe en ambos CSVs." :=
  ⟨by rfl, by rfl, by decide, by decide, by rfl⟩

/-- C6 (amended): when some requested key column is absent from one or both
datasets, the run fails — before any comparison — with the SchemaError
naming the first such key; the message does not say which side lacks the
key (see the counterexample). -/
theorem C6_missing_key (v1 v2 : DataFrame) (keys : List String) (k : String)
    (h : findMissingKey v1 v2 keys = some k) :
    main v1 v2 keys = Except.error (SchemaError.missingKey k)
      ∧ k ∈ keys
      ∧ (k ∉ v1.columns ∨ k ∉ v2.columns)
      ∧ ∀ out : CompareResult, main v1 v2 keys ≠ Except.ok out := by
  have hmain : main v1 v2 keys = Except.error (SchemaError.missingKey k) := by
    unfold main
    rw [h]
  have hmem : k ∈ keys := List.mem_of_find?_eq_some h
  have hpred := List.find?_some h
  have hside : k ∉ v1.columns ∨ k ∉ v2.columns := by
    rw [Bool.or_eq_true, Bool.not_eq_true', Bool.not_eq_true'] at hpred
    cases hpred with
    | inl h1 =>
      left
      intro hc
      have htrue : v1.columns.contains k = true := List.elem_iff.mpr hc
      rw [htrue] at h1
      cases h1
    | inr h2 =>
      right
      intro hc
      have htrue : v2.columns.contains k = true := List.elem_iff.mpr hc
      rw [htrue] at h2
      cases h2
  refine ⟨hmain, hmem, hside, ?_⟩
  intro out hcontra
  rw [hmain] at hcontra
  cases hcontra

/-- Witness for C6 (amended) at a run whose new frame lacks the key. -/
theorem C6_witness :
    findMissingKey mmV1 noKeyDF ["K"] = some "K"
      ∧ (main mmV1 noKeyDF ["K"] = Except.error (SchemaError.missingKey "K")
          ∧ "K" ∈ ["K"]
          ∧ ("K" ∉ mmV1.columns ∨ "K" ∉ noKeyDF.columns)
          ∧ ∀ out : CompareResult, main mmV1 noKeyDF ["K"] ≠ Except.ok out) :=
  ⟨by rfl, C6_missing_key mmV1 noKeyDF ["K"] "K" (by rfl)⟩

/-- C7 counterexample: comparing `dupDF` — whose key tuple `K = k` occurs
twice with distinct payloads — against itself yields two Differing rows,
not zero: the cross-product join pairs each occurrence with the other one.
The key set `["K"]` is valid (present in the frame), so the claim fails
as stated for duplicate key tuples. -/
theorem C7_counterexample :
    diferentesRowsOf (main dupDF dupDF ["K"])
        = [["k", "A", "a", "b"], ["k", "A", "b", "a"]]
      ∧ (diferentesRowsOf (main dupDF dupDF ["K"])).length ≠ 0 :=
  ⟨by rfl, by decide⟩

/-- C7 (amended): comparing a dataset against itself with any valid key set
**under which key tuples are unique** yields zero Differing rows, zero
OnlyInOld rows, zero OnlyInNew rows, and an identical count equal to the
number of rows.  (With duplicate key tuples the cross-product join breaks
this: see the counterexample.) -/
theorem C7_idempotence (v : DataFrame) (keys : List String) (out : CompareResult)
    (hok : main v v keys = Except.ok out)
    (hnd : (v.rows.map (keyTuple v.columns keys)).Nodup) :
    out.diferentes.rows.length = 0
      ∧ out.solo_v1.rows.length = 0
      ∧ out.solo_v2.rows.length = 0
      ∧ out.identicas.rows.length = v.rows.length := by
  have hout := main_ok_elim v v keys out hok
  subst hout
  dsimp only
  have hself : ∀ r ∈ v.rows, (v.rows.any (fun s =>
      keyTuple v.columns keys r == keyTuple v.columns keys s)) = true := by
    intro r hr
    rw [List.any_eq_true]
    exact ⟨r, hr, by simp⟩
  have hsolo : (soloDF v v keys).rows = [] := by
    show v.rows.filter _ = []
    rw [List.filter_eq_nil_iff]
    intro r hr
    rw [hself r hr]
    simp
  have hrowid : ∀ p ∈ alignedPairs v v keys,
      rowIdentical v.columns v.columns (colsToCompare v keys) p.1 p.2 = true := by
    rintro ⟨a, b⟩ hp
    unfold alignedPairs at hp
    obtain ⟨ha, hb, hk⟩ := mem_pairJoin.mp hp
    have hab : a = b :=
      List.inj_on_of_nodup_map hnd ha hb (beq_iff_eq.mp hk)
    subst hab
    unfold rowIdentical
    rw [List.all_eq_true]
    intro c _
    simp
  have hdiff : diffPairs v v keys = [] := by
    unfold diffPairs
    rw [List.filter_eq_nil_iff]
    intro p hp
    rw [hrowid p hp]
    simp
  have hident : identPairs v v keys = alignedPairs v v keys := by
    unfold identPairs
    rw [List.filter_eq_self]
    exact hrowid
  refine ⟨?_, ?_, ?_, ?_⟩
  · rw [diferentesDF_rows_length, hdiff]
    rfl
  · rw [show (soloDF v v keys).rows = [] from hsolo]
    rfl
  · rw [show (soloDF v v keys).rows = [] from hsolo]
    rfl
  · have hlen : (alignedPairs v v keys).length
        = (v.rows.filter (fun r => v.rows.any (fun s =>
            keyTuple v.columns keys r == keyTuple v.columns keys s))).length :=
      length_pairJoin_left (keyTuple v.columns keys) (keyTuple v.columns keys)
        v.rows v.rows hnd
    rw [identicasDF_rows_length, hident, hlen, List.filter_eq_self.mpr hself]

/-- Witness for C7 (amended) at a concrete duplicate-free run. -/
theorem C7_witness :
    main tinyDF tinyDF ["K"] = Except.ok tinyOut
      ∧ (tinyDF.rows.map (keyTuple tinyDF.columns ["K"])).Nodup
      ∧ (tinyOut.diferentes.rows.length = 0
          ∧ tinyOut.solo_v1.rows.length = 0
          ∧ tinyOut.solo_v2.rows.length = 0
          ∧ tinyOut.identicas.rows.length = tinyDF.rows.length) :=
  ⟨by rfl, by decide, C7_idempotence tinyDF ["K"] tinyOut (by rfl) (by decide)⟩

/-- C8 counterexample: `ordOld` holds keys `1, 2` in that order, `ordNew`
holds the same two rows in the order `2, 1`; all pairs are identical, and
the Identical partition comes out in the OLD frame's order `1, 2` — not in
the new frame's row order — because line 73 joins old-first. -/
theorem C8_counterexample :
    identicasRowsOf (main ordOld ordNew ["K"]) = [["1", "a"], ["2", "b"]]
      ∧ ordNew.rows = [["2", "b"], ["1", "a"]]
      ∧ ([["1", "a"], ["2", "b"]] : List Row) ≠ [["2", "b"], ["1", "a"]] :=
  ⟨by rfl, by rfl, by decide⟩

/-- C8 (amended): OnlyInNew preserves the new frame's row order and
OnlyInOld the old frame's row order (both are sublists of their source),
while the aligned pairs — hence the Identical and Differing partitions,
which are order-preserving filters of the aligned pairs — follow the OLD
dataset's original row order, as produced by the old-first inner join of
line 73: the old-side sequence of the aligned pairs is the old rows in old
order, each repeated once per matching new row, and the new-side sequence
lists, old row by old row, its matching new rows in new order.  This holds
for every successful run, duplicate key tuples included. -/
theorem C8_ordering (v1 v2 : DataFrame) (keys : List String) (out : CompareResult)
    (hok : main v1 v2 keys = Except.ok out) :
    out.solo_v2.rows.Sublist v2.rows
      ∧ out.solo_v1.rows.Sublist v1.rows
      ∧ (alignedPairs v1 v2 keys).map Prod.fst
          = v1.rows.flatMap (fun r => List.replicate
              (v2.rows.countP (fun s =>
                keyTuple v1.columns keys r == keyTuple v2.columns keys s)) r)
      ∧ (alignedPairs v1 v2 keys).map Prod.snd
          = v1.rows.flatMap (fun r => v2.rows.filter (fun s =>
              keyTuple v1.columns keys r == keyTuple v2.columns keys s))
      ∧ ((identPairs v1 v2 keys).map Prod.fst).Sublist
          ((alignedPairs v1 v2 keys).map Prod.fst)
      ∧ ((diffPairs v1 v2 keys).map Prod.fst).Sublist
          ((alignedPairs v1 v2 keys).map Prod.fst) := by
  have hout := main_ok_elim v1 v2 keys out hok
  subst hout
  dsimp only
  refine ⟨List.filter_sublist _, List.filter_sublist _, ?_, ?_, ?_, ?_⟩
  · exact map_fst_pairJoin_replicate v1.rows v2.rows _
  · exact map_snd_pairJoin v1.rows v2.rows _
  · exact List.Sublist.map Prod.fst (List.filter_sublist _)
  · exact List.Sublist.map Prod.fst (List.filter_sublist _)

/-- Witness for C8 (amended) at the two-row reordered run. -/
theorem C8_witness :
    main ordOld ordNew ["K"] = Except.ok ordOut
      ∧ (ordOut.solo_v2.rows.Sublist ordNew.rows
          ∧ ordOut.solo_v1.rows.Sublist ordOld.rows
          ∧ (alignedPairs ordOld ordNew ["K"]).map Prod.fst
              = ordOld.rows.flatMap (fun r => List.replicate
                  (ordNew.rows.countP (fun s =>
                    keyTuple ordOld.columns ["K"] r == keyTuple ordNew.columns ["K"] s)) r)
          ∧ (alignedPairs ordOld ordNew ["K"]).map Prod.snd
              = ordOld.rows.flatMap (fun r => ordNew.rows.filter (fun s =>
                  keyTuple ordOld.columns ["K"] r == keyTuple ordNew.columns ["K"] s))
          ∧ ((identPairs ordOld ordNew ["K"]).map Prod.fst).Sublist
              ((alignedPairs ordOld ordNew ["K"]).map Prod.fst)
          ∧ ((diffPairs ordOld ordNew ["K"]).map Prod.fst).Sublist
              ((alignedPairs ordOld ordNew ["K"]).map Prod.fst)) :=
  ⟨by rfl, C8_ordering ordOld ordNew ["K"] ordOut (by rfl)⟩

/-- C9: every old occurrence pairs with every new occurrence of the same
key tuple — membership in the join requires only matching key tuples, and
for any key tuple K the number of aligned pairs carrying K is the product
of the numbers of old and new rows carrying K (cross-product semantics, no
deduplication). -/
theorem C9_duplicate_cross_product (v1 v2 : DataFrame) (keys : List String)
    (K : List String) (r1 r2 : Row)
    (hr1 : r1 ∈ v1.rows) (hr2 : r2 ∈ v2.rows)
    (hk : keyTuple v1.columns keys r1 = keyTuple v2.columns keys r2) :
    (r1, r2) ∈ alignedPairs v1 v2 keys
      ∧ (alignedPairs v1 v2 keys).countP (fun p => keyTuple v1.columns keys p.1 == K)
        = v1.rows.countP (fun r => keyTuple v1.columns keys r == K)
          * v2.rows.countP (fun r => keyTuple v2.columns keys r == K) := by
  constructor
  · unfold alignedPairs
    exact mem_pairJoin.mpr ⟨hr1, hr2, beq_iff_eq.mpr hk⟩
  · exact countP_keyclass_pairJoin (keyTuple v1.columns keys) (keyTuple v2.columns keys)
      v1.rows v2.rows K

/-- Witness for C9 at frames with a duplicated key on both sides: the
2 × 2 cross product. -/
theorem C9_witness :
    ["k", "a"] ∈ dupDF.rows
      ∧ ["k", "c"] ∈ dupDF2.rows
      ∧ keyTuple dupDF.columns ["K"] ["k", "a"] = keyTuple dupDF2.columns ["K"] ["k", "c"]
      ∧ ((["k", "a"], ["k", "c"]) ∈ alignedPairs dupDF dupDF2 ["K"]
          ∧ (alignedPairs dupDF dupDF2 ["K"]).countP
              (fun p => keyTuple dupDF.columns ["K"] p.1 == ["k"])
            = dupDF.rows.countP (fun r => keyTuple dupDF.columns ["K"] r == ["k"])
              * dupDF2.rows.countP (fun r => keyTuple dupDF2.columns ["K"] r == ["k"])) :=
  ⟨by decide, by decide, by rfl,
    C9_duplicate_cross_product dupDF dupDF2 ["K"] ["k"] ["k", "a"] ["k", "c"]
      (by decide) (by decide) (by rfl)⟩

/-- C10: every row placed in the Differing partition has at least one
comparable column that compared unequal (a non-empty differing-columns
list); and when the key columns comprise the entire column set — an empty
comparable column set — every aligned pair is classified Identical and the
Differing partition is empty. -/
theorem C10_nonempty_diffcols (v1 v2 : DataFrame) (keys : List String) (out : CompareResult)
    (hok : main v1 v2 keys = Except.ok out) :
    (∀ p ∈ diffPairs v1 v2 keys,
        diffColNames v1.columns v2.columns (colsToCompare v1 keys) p.1 p.2 ≠ [])
      ∧ (colsToCompare v1 keys = [] →
          diffPairs v1 v2 keys = []
            ∧ identPairs v1 v2 keys = alignedPairs v1 v2 keys
            ∧ out.diferentes.rows = []) := by
  have hout := main_ok_elim v1 v2 keys out hok
  subst hout
  dsimp only
  constructor
  · intro p hp
    unfold diffPairs at hp
    rw [List.mem_filter] at hp
    have hfalse : rowIdentical v1.columns v2.columns (colsToCompare v1 keys) p.1 p.2
        = false := by
      have hnot := hp.2
      cases hh : rowIdentical v1.columns v2.columns (colsToCompare v1 keys) p.1 p.2 with
      | false => rfl
      | true =>
        rw [hh] at hnot
        simp at hnot
    unfold rowIdentical at hfalse
    rw [List.all_eq_false] at hfalse
    obtain ⟨c, hc, hne⟩ := hfalse
    have hcmem : c ∈ diffColNames v1.columns v2.columns (colsToCompare v1 keys) p.1 p.2 := by
      unfold diffColNames
      rw [List.mem_filter]
      refine ⟨hc, ?_⟩
      have hfb : (cellAt v1.columns p.1 c == cellAt v2.columns p.2 c) = false :=
        Bool.eq_false_iff.mpr hne
      simp [bne, hfb]
    exact List.ne_nil_of_mem hcmem
  · intro hctc
    have hallid : ∀ p ∈ alignedPairs v1 v2 keys,
        rowIdentical v1.columns v2.columns (colsToCompare v1 keys) p.1 p.2 = true := by
      intro p _
      unfold rowIdentical
      rw [hctc]
      rfl
    have hdiff : diffPairs v1 v2 keys = [] := by
      unfold diffPairs
      rw [List.filter_eq_nil_iff]
      intro p hp
      rw [hallid p hp]
      simp
    refine ⟨hdiff, ?_, ?_⟩
    · unfold identPairs
      rw [List.filter_eq_self]
      exact hallid
    · unfold diferentesDF
      rw [if_pos (by rw [hdiff]; rfl)]

/-- Witness for C10 at a run whose keys cover the whole column set. -/
theorem C10_witness :
    main tinyDF tinyDF ["K"] = Except.ok tinyOut
      ∧ ((∀ p ∈ diffPairs tinyDF tinyDF ["K"],
            diffColNames tinyDF.columns tinyDF.columns
              (colsToCompare tinyDF ["K"]) p.1 p.2 ≠ [])
          ∧ (colsToCompare tinyDF ["K"] = [] →
              diffPairs tinyDF tinyDF ["K"] = []
                ∧ identPairs tinyDF tinyDF ["K"] = alignedPairs tinyDF tinyDF ["K"]
                ∧ tinyOut.diferentes.rows = [])) :=
  ⟨by rfl, C10_nonempty_diffcols tinyDF tinyDF ["K"] tinyOut (by rfl)⟩

end ComparacionStock
